import Mathlib

/-
  Shallow embedding of the HTTP context core (src/src/HttpContext.h) of the
  uWebSockets repository.

  The embedding models the per-socket connection state (`HttpResponseData`),
  the per-listener context (`HttpContextData`), and the event handlers that
  `HttpContext::init` registers on the socket context: on_data (with its three
  parser callbacks: request head, body chunk, parse error), on_writable and
  on_close.  The byte-level HTTP parser, the route-pattern matcher and the
  socket layer are external collaborators of this repository; they enter the
  model through their contracts: the parser as a list of parser events that
  `consumePostPadded` folds the callbacks over, the router as a function from
  (method, url) to an optional matched handler, and the socket layer as fields
  (closed, shutDown, timer) plus a trace of the effect calls the core makes
  (cork, uncork, us_socket_timeout, us_socket_close, the zero-byte drain
  write, callback invocations).

  User code (route handlers, use handlers, in-stream handlers) is opaque to
  the core; it is modelled as a list of primitive operations on the
  user-visible API (respond/end, register on_aborted, register an in-stream
  data handler, register on_writable, close, shutdown, upgrade).
-/

/-- Socket pointers are modelled as numeric identities; `none` in an
`Option SocketId` stands for a null pointer. -/
abbrev SocketId := Nat

/-- src/src/HttpContext.h line 41: slow-loris protection timeout. -/
def HTTP_IDLE_TIMEOUT_S : Nat := 10

/-- Observable effect calls the core makes on the socket layer and on user
callbacks, in program order. -/
inductive Ev where
  | cork (s : SocketId)
  | uncork (s : SocketId)
  | timerSet (s : SocketId) (n : Nat)
  | closeEv (s : SocketId)
  | useRun
  | handlerRun
  | routeAttempt (method : String)
  | chunkDelivered (fin : Bool)
  | abortedCalled
  | filterRun
  | terminateEv
  | drainWrite (s : SocketId)
  | writableCb (off : Nat)
deriving DecidableEq, Repr

/-- The per-socket state: `HttpResponseData` fields (state bitset split into
its two read bits `responsePending` = HTTP_RESPONSE_PENDING and
`hasResponded` = the bit `hasResponded()` reads; `offset`; the three optional
user callbacks kept as registration flags), the socket-layer status
(closed / shut down / timer, where timer 0 means disarmed), the context's
transient `upgradedWebSocket` slot, a flag recording that std::terminate was
reached, and the accumulated effect trace. -/
structure St where
  closed : Bool
  shutDown : Bool
  timer : Nat
  responsePending : Bool
  offset : Nat
  onAborted : Bool
  onWritable : Bool
  inStream : Bool
  hasResponded : Bool
  upgradedWebSocket : Option SocketId
  terminated : Bool
  trace : List Ev
deriving DecidableEq, Repr

/-- Append one effect to the trace. -/
def emit (st : St) (e : Ev) : St := {st with trace := st.trace ++ [e]}

/-- `us_socket_timeout(SSL, s, n)`: set the idle timer (0 disarms). -/
def setTimer (st : St) (sId : SocketId) (n : Nat) : St :=
  emit {st with timer := n} (Ev.timerSet sId n)

/-- `us_socket_close(SSL, s)`: force-close the socket. -/
def closeSock (st : St) (sId : SocketId) : St :=
  emit {st with closed := true} (Ev.closeEv sId)

/-- `AsyncSocket::cork()` (HttpContext.h line 119). -/
def corkSock (st : St) (sId : SocketId) : St := emit st (Ev.cork sId)

/-- `AsyncSocket::uncork()` (HttpContext.h lines 232, 247); whether the
uncork left backpressure (`failed`) is an input of the socket layer. -/
def uncorkSock (st : St) (sId : SocketId) : St := emit st (Ev.uncork sId)

/-- Primitive operations user callbacks may perform on the user-visible API
from inside an in-stream (request body) handler. -/
inductive UOp where
  | respond
  | regAborted
  | regInStream
  | regOnWritable
  | closeSocket
  | shutdownSocket
deriving DecidableEq, Repr

/-- Operations available to route handlers and use handlers: everything an
in-stream handler may do, plus `upgradeToWebSocket` (HttpContext.h lines
317-321), which per spec §4.6 is only legal inside a request handler. -/
inductive HOp where
  | base (u : UOp)
  | upgrade (w : SocketId)
deriving DecidableEq, Repr

/-- Modelled from the spec: `HttpResponse::end` and the rest of
HttpResponse.h / HttpResponseData.h are not under src/.  Spec §4.4: "end
closes the response, clears RESPONSE_PENDING, re-arms idle timer";
`has_responded()` becomes true; spec invariant 6 ("on_aborted ... never
[invoked] after a successful response") requires completion to drop the
registered on_aborted callback. -/
def endResponse (sId : SocketId) (st : St) : St :=
  setTimer {st with hasResponded := true, responsePending := false,
                    onAborted := false} sId HTTP_IDLE_TIMEOUT_S

/-- Effect of one primitive user operation. -/
def applyUOp (sId : SocketId) (st : St) : UOp → St
  | UOp.respond => endResponse sId st
  | UOp.regAborted => {st with onAborted := true}
  | UOp.regInStream => {st with inStream := true}
  | UOp.regOnWritable => {st with onWritable := true}
  | UOp.closeSocket => closeSock st sId
  | UOp.shutdownSocket => {st with shutDown := true}

/-- Effect of one handler operation. -/
def applyHOp (sId : SocketId) (st : St) : HOp → St
  | HOp.base u => applyUOp sId st u
  | HOp.upgrade w => {st with upgradedWebSocket := some w}

/-- Run an in-stream handler body (a script of primitive operations). -/
def applyUOps (sId : SocketId) (ops : List UOp) (st : St) : St :=
  ops.foldl (applyUOp sId) st

/-- Run a route/use handler body. -/
def applyHOps (sId : SocketId) (ops : List HOp) (st : St) : St :=
  ops.foldl (applyHOp sId) st

/-- The (method, url) view of a parsed request head that the routing code of
HttpContext.h reads (`httpRequest->getMethod()`, `httpRequest->getUrl()`). -/
structure Req where
  method : String
  url : String
deriving DecidableEq, Repr

/-- `HttpContextData`: the use-handler list, the router (external
collaborator, modelled by its contract: an optional matched handler per
(method, url) pair, the yield-retry loop being internal to it), and the
number of registered filter handlers. -/
structure Ctx where
  useHandlers : List (List HOp)
  router : String → String → Option (List HOp)
  filters : Nat

/-- HttpContext.h lines 128-132: on every request head, reset the idle timer
to 0 and clear `offset`. -/
def headReset (sId : SocketId) (st : St) : St :=
  {setTimer st sId 0 with offset := 0}

/-- HttpContext.h line 141: `httpResponseData->state =
HTTP_RESPONSE_PENDING` — an assignment of the whole bitset, so the
responded bit is cleared. -/
def markPending (st : St) : St :=
  {st with responsePending := true, hasResponded := false}

/-- HttpContext.h lines 144-146: run every use handler in insertion order. -/
def runUse (sId : SocketId) (hs : List (List HOp)) (st : St) : St :=
  hs.foldl (fun s ops => applyHOps sId ops (emit s Ev.useRun)) st

/-- HttpContext.h lines 148-157: the two routing passes — first
(method, url), then ("*", url).  Returns the matched handler, if any. -/
def routeTwoPass (ctx : Ctx) (req : Req) (st : St) : St × Option (List HOp) :=
  let st1 := emit st (Ev.routeAttempt req.method)
  match ctx.router req.method req.url with
  | some ops => (st1, some ops)
  | none =>
    let st2 := emit st1 (Ev.routeAttempt "*")
    match ctx.router "*" req.url with
    | some ops => (st2, some ops)
    | none => (st2, none)

/-- HttpContext.h lines 159-188: the checks after the matched route handler
returned — upgrade, closed, shut down, the std::terminate on a handler that
neither responded nor registered on_aborted, and the idle-timer re-arm for a
pending in-stream body. -/
def postHandler (sId : SocketId) (st : St) : St × Option SocketId :=
  if st.upgradedWebSocket.isSome then (st, none)
  else if st.closed = true then (st, none)
  else if st.shutDown = true then (st, none)
  else if st.hasResponded = false && st.onAborted = false then
    (emit {st with terminated := true} Ev.terminateEv, none)
  else if st.hasResponded = false && st.inStream = true then
    (setTimer st sId HTTP_IDLE_TIMEOUT_S, some sId)
  else (st, some sId)

/-- HttpContext.h lines 125-189: the request-head parser callback.  Returns
the continuation user pointer: `some sId` to continue parsing, `none`
(nullptr) to abort. -/
def onRequestHead (ctx : Ctx) (sId : SocketId) (req : Req) (st : St) :
    St × Option SocketId :=
  let st1 := headReset sId st
  if st1.responsePending = true then (closeSock st1 sId, none)
  else
    let st2 := markPending st1
    let st3 := runUse sId ctx.useHandlers st2
    match routeTwoPass ctx req st3 with
    | (st4, none) => (closeSock st4 sId, none)
    | (st4, some ops) =>
      let st5 := applyHOps sId ops (emit st4 Ev.handlerRun)
      postHandler sId st5

/-- HttpContext.h lines 190-227: the body-chunk parser callback.  `script`
is what the registered in-stream handler does when given this chunk. -/
def onBody (sId : SocketId) (chunk : String) (script : List UOp) (fin : Bool)
    (st : St) : St × Option SocketId :=
  if st.inStream = true then
    let st1 := setTimer st sId (if fin then 0 else HTTP_IDLE_TIMEOUT_S)
    let st2 := applyUOps sId script (emit st1 (Ev.chunkDelivered fin))
    if st2.closed = true then (st2, none)
    else if st2.shutDown = true then (st2, none)
    else if fin then ({st2 with inStream := false}, some sId)
    else (st2, some sId)
  else (st, some sId)

/-- HttpContext.h lines 223-227: the parse-error callback closes the socket
and aborts parsing. -/
def onParseError (sId : SocketId) (st : St) : St × Option SocketId :=
  (closeSock st sId, none)

/-- One event of the external HTTP parser: a completed request head, a body
chunk (with the reaction of the in-stream handler, if one is registered, and
the fin flag), or a parse error. -/
inductive ParserEvent where
  | head (req : Req)
  | chunk (data : String) (script : List UOp) (fin : Bool)
  | err
deriving DecidableEq, Repr

/-- Dispatch one parser event to the matching callback of HttpContext.h. -/
def stepEvent (ctx : Ctx) (sId : SocketId) (st : St) :
    ParserEvent → St × Option SocketId
  | ParserEvent.head req => onRequestHead ctx sId req st
  | ParserEvent.chunk d script fin => onBody sId d script fin st
  | ParserEvent.err => onParseError sId st

/-- `HttpResponseData::consumePostPadded` through its contract: the parser
folds the callbacks over its events and keeps going while a callback returns
the same user pointer it was given; a different (null) return aborts and is
passed through (HttpContext.h line 124: only different-or-not matters). -/
def consume (ctx : Ctx) (sId : SocketId) :
    List ParserEvent → St → St × Option SocketId
  | [], st => (st, some sId)
  | e :: rest, st =>
    match stepEvent ctx sId st e with
    | (st', some _) => consume ctx sId rest st'
    | (st', none) => (st', none)

/-- HttpContext.h lines 101-258: the on_data event handler.  `uncorkFailed`
is the `failed` component the socket layer reports from the uncork on the
normal path.  Returns the socket pointer handed back to the event loop. -/
def onDataHandler (ctx : Ctx) (sId : SocketId) (evs : List ParserEvent)
    (uncorkFailed : Bool) (st : St) : St × Option SocketId :=
  if st.shutDown = true then (st, some sId)
  else
    match consume ctx sId evs (corkSock st sId) with
    | (st1, some r) =>
      let st2 := uncorkSock st1 r
      let st3 := if uncorkFailed then setTimer st2 sId HTTP_IDLE_TIMEOUT_S
                 else st2
      (st3, some r)
    | (st1, none) =>
      match st1.upgradedWebSocket with
      | some w => ({uncorkSock st1 w with upgradedWebSocket := none}, some w)
      | none => (st1, some sId)

/-- HttpContext.h lines 261-293: the on_writable event handler.  `cbSuccess`
is the boolean the registered user on_writable callback returns. -/
def onWritableHandler (sId : SocketId) (cbSuccess : Bool) (st : St) :
    St × SocketId :=
  if st.onWritable = true then
    let st1 := setTimer st sId 0
    let st2 := emit st1 (Ev.writableCb st1.offset)
    if cbSuccess = false then (st2, sId)
    else (st2, sId)
  else
    let st1 := emit st (Ev.drainWrite sId)
    (setTimer st1 sId HTTP_IDLE_TIMEOUT_S, sId)

/-- HttpContext.h lines 79-98: the on_close event handler — run the filter
handlers with -1, then signal a broken request iff an on_aborted callback is
registered. -/
def onCloseHandler (ctx : Ctx) (st : St) : St :=
  let st1 := {st with trace := st.trace ++ List.replicate ctx.filters Ev.filterRun}
  if st1.onAborted = true then emit st1 Ev.abortedCalled else st1

/-- A baseline freshly-accepted connection state. -/
def st0 : St :=
  { closed := false, shutDown := false, timer := HTTP_IDLE_TIMEOUT_S,
    responsePending := false, offset := 0, onAborted := false,
    onWritable := false, inStream := false, hasResponded := false,
    upgradedWebSocket := none, terminated := false, trace := [] }

/-- Count the trace events satisfying a predicate. -/
def cnt (p : Ev → Bool) (t : List Ev) : Nat := (t.filter p).length

/-- Is this event a cork? -/
def isCork : Ev → Bool
  | Ev.cork _ => true
  | _ => false

/-- Is this event an uncork? -/
def isUncork : Ev → Bool
  | Ev.uncork _ => true
  | _ => false

/-- Is this event a routing action (a router pass, or the matched handler
running)? -/
def isRouteEv : Ev → Bool
  | Ev.routeAttempt _ => true
  | Ev.handlerRun => true
  | _ => false

/-- Is this event an invocation of the user's on_aborted callback? -/
def isAbortedEv : Ev → Bool
  | Ev.abortedCalled => true
  | _ => false

/-- Events that primitive user operations may emit. -/
def scriptEv : Ev → Bool
  | Ev.closeEv _ => true
  | Ev.timerSet _ _ => true
  | _ => false

/-- Events that are neither cork nor uncork. -/
def quietEv : Ev → Bool
  | Ev.cork _ => false
  | Ev.uncork _ => false
  | _ => true

/-- `st'` extends the trace of `st` by events all satisfying `q`, leaving
everything before untouched. -/
def DeltaAll (q : Ev → Bool) (st st' : St) : Prop :=
  ∃ t, st'.trace = st.trace ++ t ∧ t.all q = true

/-- Events the use-handler chain may emit. -/
def useChainEv : Ev → Bool
  | Ev.useRun => true
  | Ev.closeEv _ => true
  | Ev.timerSet _ _ => true
  | _ => false

/-- An empty context: no use handlers, an empty route table, no filters. -/
def ctx0 : Ctx := ⟨[], fun _ _ => none, 0⟩

/-- A connection with a still-pending response. -/
def stPend : St := {st0 with responsePending := true}

/-- A connection with a registered on_writable callback, an armed timer and a
nonzero write offset. -/
def stWr : St := {st0 with onWritable := true, timer := 7, offset := 3}

/-- A context whose every route immediately upgrades to socket 2. -/
def ctxUp : Ctx :=
  ⟨[], fun _ _ => some [HOp.upgrade 2], 0⟩

/-- A connection whose handler has returned unresponded with in_stream and
on_aborted registered. -/
def stStream : St := {st0 with inStream := true, onAborted := true}

/-- A connection with a registered in_stream handler. -/
def stIn : St := {st0 with inStream := true}

/-- Does this handler operation register on_aborted? -/
def isRegAborted : HOp → Bool
  | HOp.base UOp.regAborted => true
  | _ => false

/-- Does this handler operation complete the response? -/
def isRespondOp : HOp → Bool
  | HOp.base UOp.respond => true
  | _ => false

/-- Does the script register on_aborted somewhere after having completed the
response (registering an abort callback for an already completed response)? -/
def regAbortedAfterRespond : List HOp → Bool
  | [] => false
  | op :: rest =>
    (isRespondOp op && rest.any isRegAborted) || regAbortedAfterRespond rest

lemma deltaAll_self (q : Ev → Bool) (st : St) : DeltaAll q st st :=
  ⟨[], by simp⟩

lemma deltaAll_trans {q : Ev → Bool} {st st' st'' : St}
    (h1 : DeltaAll q st st') (h2 : DeltaAll q st' st'') :
    DeltaAll q st st'' := by
  obtain ⟨t1, e1, a1⟩ := h1
  obtain ⟨t2, e2, a2⟩ := h2
  exact ⟨t1 ++ t2, by simp [e2, e1, List.all_append, a1, a2]⟩

lemma deltaAll_mono {q q' : Ev → Bool} (h : ∀ e, q e = true → q' e = true)
    {st st' : St} (hd : DeltaAll q st st') : DeltaAll q' st st' := by
  obtain ⟨t, e1, a1⟩ := hd
  refine ⟨t, e1, ?_⟩
  simp only [List.all_eq_true] at a1 ⊢
  exact fun x hx => h x (a1 x hx)

lemma deltaAll_emit {q : Ev → Bool} {e : Ev} (h : q e = true) (st : St) :
    DeltaAll q st (emit st e) :=
  ⟨[e], by simp [emit, h]⟩

lemma deltaAll_of_trace_eq {q : Ev → Bool} {st st' : St}
    (h : st'.trace = st.trace) : DeltaAll q st st' :=
  ⟨[], by simp [h]⟩

lemma scriptEv_quiet : ∀ e, scriptEv e = true → quietEv e = true := by
  intro e he
  cases e <;> simp_all [scriptEv, quietEv]

lemma scriptEv_not_route : ∀ e, scriptEv e = true → isRouteEv e = false := by
  intro e he
  cases e <;> simp_all [scriptEv, isRouteEv]

lemma scriptEv_not_aborted : ∀ e, scriptEv e = true → isAbortedEv e = false := by
  intro e he
  cases e <;> simp_all [scriptEv, isAbortedEv]

/-- Events appended by an in-stream user operation all satisfy `scriptEv`. -/
lemma applyUOp_delta (sId : SocketId) (st : St) (u : UOp) :
    DeltaAll scriptEv st (applyUOp sId st u) := by
  cases u
  all_goals
    simp only [applyUOp, endResponse, setTimer, closeSock, emit]
  case respond => exact ⟨[Ev.timerSet sId HTTP_IDLE_TIMEOUT_S], by simp [scriptEv]⟩
  case regAborted => exact deltaAll_of_trace_eq rfl
  case regInStream => exact deltaAll_of_trace_eq rfl
  case regOnWritable => exact deltaAll_of_trace_eq rfl
  case closeSocket => exact ⟨[Ev.closeEv sId], by simp [scriptEv]⟩
  case shutdownSocket => exact deltaAll_of_trace_eq rfl

/-- Events appended by a handler operation all satisfy `scriptEv`. -/
lemma applyHOp_delta (sId : SocketId) (st : St) (op : HOp) :
    DeltaAll scriptEv st (applyHOp sId st op) := by
  cases op
  case base u => exact applyUOp_delta sId st u
  case upgrade w => exact deltaAll_of_trace_eq rfl

lemma applyUOps_delta (sId : SocketId) (ops : List UOp) :
    ∀ st : St, DeltaAll scriptEv st (applyUOps sId ops st) := by
  induction ops with
  | nil => intro st; exact deltaAll_self _ _
  | cons u rest ih =>
    intro st
    have h1 : applyUOps sId (u :: rest) st = applyUOps sId rest (applyUOp sId st u) := rfl
    rw [h1]
    exact deltaAll_trans (applyUOp_delta sId st u) (ih _)

lemma applyHOps_delta (sId : SocketId) (ops : List HOp) :
    ∀ st : St, DeltaAll scriptEv st (applyHOps sId ops st) := by
  induction ops with
  | nil => intro st; exact deltaAll_self _ _
  | cons op rest ih =>
    intro st
    have h1 : applyHOps sId (op :: rest) st = applyHOps sId rest (applyHOp sId st op) := rfl
    rw [h1]
    exact deltaAll_trans (applyHOp_delta sId st op) (ih _)

lemma scriptEv_useChain : ∀ e, scriptEv e = true → useChainEv e = true := by
  intro e he
  cases e <;> simp_all [scriptEv, useChainEv]

lemma useChainEv_quiet : ∀ e, useChainEv e = true → quietEv e = true := by
  intro e he
  cases e <;> simp_all [useChainEv, quietEv]

lemma useChainEv_not_route : ∀ e, useChainEv e = true → isRouteEv e = false := by
  intro e he
  cases e <;> simp_all [useChainEv, isRouteEv]

lemma runUse_delta (sId : SocketId) (hs : List (List HOp)) :
    ∀ st : St, DeltaAll useChainEv st (runUse sId hs st) := by
  induction hs with
  | nil => intro st; exact deltaAll_self _ _
  | cons ops rest ih =>
    intro st
    have h1 : runUse sId (ops :: rest) st
        = runUse sId rest (applyHOps sId ops (emit st Ev.useRun)) := rfl
    rw [h1]
    have hEmit : DeltaAll useChainEv st (emit st Ev.useRun) := deltaAll_emit rfl st
    refine deltaAll_trans hEmit ?_
    refine deltaAll_trans ?_ (ih _)
    exact deltaAll_mono scriptEv_useChain (applyHOps_delta sId ops _)

lemma routeTwoPass_delta (ctx : Ctx) (req : Req) (st : St) :
    DeltaAll quietEv st (routeTwoPass ctx req st).1 := by
  have hA : DeltaAll quietEv st (emit st (Ev.routeAttempt req.method)) :=
    deltaAll_emit rfl st
  have hB : DeltaAll quietEv (emit st (Ev.routeAttempt req.method))
      (emit (emit st (Ev.routeAttempt req.method)) (Ev.routeAttempt "*")) :=
    deltaAll_emit rfl _
  unfold routeTwoPass
  cases h1 : ctx.router req.method req.url with
  | some ops => simpa using hA
  | none =>
    cases h2 : ctx.router "*" req.url with
    | some ops => simpa using deltaAll_trans hA hB
    | none => simpa using deltaAll_trans hA hB

lemma postHandler_delta (sId : SocketId) (st : St) :
    DeltaAll quietEv st (postHandler sId st).1 := by
  unfold postHandler
  split
  · exact deltaAll_self _ _
  split
  · exact deltaAll_self _ _
  split
  · exact deltaAll_self _ _
  split
  · exact ⟨[Ev.terminateEv], by simp [emit, quietEv]⟩
  split
  · exact ⟨[Ev.timerSet sId HTTP_IDLE_TIMEOUT_S], by simp [setTimer, emit, quietEv]⟩
  · exact deltaAll_self _ _

lemma onRequestHead_delta1 (ctx : Ctx) (sId : SocketId) (req : Req) (st : St) :
    DeltaAll quietEv (headReset sId st) (onRequestHead ctx sId req st).1 := by
  simp only [onRequestHead]
  split
  · exact ⟨[Ev.closeEv sId], by simp [closeSock, emit, quietEv]⟩
  · have h2 : DeltaAll quietEv (headReset sId st) (markPending (headReset sId st)) :=
      deltaAll_of_trace_eq rfl
    have h3 : DeltaAll quietEv (markPending (headReset sId st))
        (runUse sId ctx.useHandlers (markPending (headReset sId st))) :=
      deltaAll_mono useChainEv_quiet (runUse_delta sId ctx.useHandlers _)
    have h4 := routeTwoPass_delta ctx req
      (runUse sId ctx.useHandlers (markPending (headReset sId st)))
    rcases hR : routeTwoPass ctx req
        (runUse sId ctx.useHandlers (markPending (headReset sId st))) with ⟨st4, ro⟩
    rw [hR] at h4
    have hPre : DeltaAll quietEv (headReset sId st) st4 :=
      deltaAll_trans h2 (deltaAll_trans h3 h4)
    cases ro with
    | none =>
      simp only
      refine deltaAll_trans hPre ?_
      exact ⟨[Ev.closeEv sId], by simp [closeSock, emit, quietEv]⟩
    | some ops =>
      simp only
      refine deltaAll_trans hPre ?_
      have h5 : DeltaAll quietEv st4 (emit st4 Ev.handlerRun) := deltaAll_emit rfl st4
      have h6 : DeltaAll quietEv (emit st4 Ev.handlerRun)
          (applyHOps sId ops (emit st4 Ev.handlerRun)) :=
        deltaAll_mono scriptEv_quiet (applyHOps_delta sId ops _)
      exact deltaAll_trans h5 (deltaAll_trans h6 (postHandler_delta sId _))

lemma headReset_trace (sId : SocketId) (st : St) :
    (headReset sId st).trace = st.trace ++ [Ev.timerSet sId 0] := by
  simp [headReset, setTimer, emit]

lemma onRequestHead_shape (ctx : Ctx) (sId : SocketId) (req : Req) (st : St) :
    ∃ t, (onRequestHead ctx sId req st).1.trace
        = st.trace ++ Ev.timerSet sId 0 :: t ∧ t.all quietEv = true := by
  obtain ⟨t, ht, ha⟩ := onRequestHead_delta1 ctx sId req st
  refine ⟨t, ?_, ha⟩
  rw [ht, headReset_trace]
  simp

lemma onBody_delta (sId : SocketId) (chunk : String) (script : List UOp)
    (fin : Bool) (st : St) :
    DeltaAll quietEv st (onBody sId chunk script fin st).1 := by
  by_cases h : st.inStream = true
  · have h1 : DeltaAll quietEv st
        (setTimer st sId (if fin then 0 else HTTP_IDLE_TIMEOUT_S)) :=
      ⟨[Ev.timerSet sId (if fin then 0 else HTTP_IDLE_TIMEOUT_S)],
        by simp [setTimer, emit, quietEv]⟩
    have h2 : DeltaAll quietEv
        (setTimer st sId (if fin then 0 else HTTP_IDLE_TIMEOUT_S))
        (emit (setTimer st sId (if fin then 0 else HTTP_IDLE_TIMEOUT_S))
          (Ev.chunkDelivered fin)) := deltaAll_emit rfl _
    have h3 : DeltaAll quietEv
        (emit (setTimer st sId (if fin then 0 else HTTP_IDLE_TIMEOUT_S))
          (Ev.chunkDelivered fin))
        (applyUOps sId script
          (emit (setTimer st sId (if fin then 0 else HTTP_IDLE_TIMEOUT_S))
            (Ev.chunkDelivered fin))) :=
      deltaAll_mono scriptEv_quiet (applyUOps_delta sId script _)
    have hPre := deltaAll_trans h1 (deltaAll_trans h2 h3)
    have hTr : (onBody sId chunk script fin st).1.trace
        = (applyUOps sId script
            (emit (setTimer st sId (if fin then 0 else HTTP_IDLE_TIMEOUT_S))
              (Ev.chunkDelivered fin))).trace := by
      simp only [onBody, h, eq_self_iff_true, if_true]
      repeat' split
      all_goals rfl
    obtain ⟨t, e1, a1⟩ := hPre
    exact ⟨t, by rw [hTr, e1], a1⟩
  · have hb : ¬ (st.inStream = true) := h
    simp only [onBody, if_neg hb]
    exact deltaAll_self _ _

lemma onParseError_delta (sId : SocketId) (st : St) :
    DeltaAll quietEv st (onParseError sId st).1 :=
  ⟨[Ev.closeEv sId], by simp [onParseError, closeSock, emit, quietEv]⟩

lemma stepEvent_delta (ctx : Ctx) (sId : SocketId) (st : St) (e : ParserEvent) :
    DeltaAll quietEv st (stepEvent ctx sId st e).1 := by
  cases e with
  | head req =>
    obtain ⟨t, ht, ha⟩ := onRequestHead_shape ctx sId req st
    exact ⟨Ev.timerSet sId 0 :: t, by simpa [stepEvent] using ht,
      by simp [List.all_cons, ha, quietEv]⟩
  | chunk d script fin => exact onBody_delta sId d script fin st
  | err => exact onParseError_delta sId st

lemma consume_delta (ctx : Ctx) (sId : SocketId) :
    ∀ (evs : List ParserEvent) (st : St),
    DeltaAll quietEv st (consume ctx sId evs st).1 := by
  intro evs
  induction evs with
  | nil => intro st; exact deltaAll_self _ _
  | cons e rest ih =>
    intro st
    rcases hS : stepEvent ctx sId st e with ⟨st', r⟩
    have hd : DeltaAll quietEv st st' := by
      have h := stepEvent_delta ctx sId st e
      rwa [hS] at h
    cases r with
    | some u =>
      have hEq : consume ctx sId (e :: rest) st = consume ctx sId rest st' := by
        simp [consume, hS]
      rw [hEq]
      exact deltaAll_trans hd (ih st')
    | none =>
      have hEq : consume ctx sId (e :: rest) st = (st', none) := by
        simp [consume, hS]
      rw [hEq]
      exact hd

lemma applyUOp_slot (sId : SocketId) (st : St) (u : UOp) :
    (applyUOp sId st u).upgradedWebSocket = st.upgradedWebSocket := by
  cases u <;> simp [applyUOp, endResponse, setTimer, closeSock, emit]

lemma applyUOps_slot (sId : SocketId) (script : List UOp) :
    ∀ st : St, (applyUOps sId script st).upgradedWebSocket = st.upgradedWebSocket := by
  induction script with
  | nil => intro st; rfl
  | cons u rest ih =>
    intro st
    have h1 : applyUOps sId (u :: rest) st = applyUOps sId rest (applyUOp sId st u) := rfl
    rw [h1, ih, applyUOp_slot]

lemma onBody_slot (sId : SocketId) (chunk : String) (script : List UOp)
    (fin : Bool) (st : St) :
    (onBody sId chunk script fin st).1.upgradedWebSocket = st.upgradedWebSocket := by
  by_cases h : st.inStream = true
  · have hTr : (onBody sId chunk script fin st).1.upgradedWebSocket
        = (applyUOps sId script
            (emit (setTimer st sId (if fin then 0 else HTTP_IDLE_TIMEOUT_S))
              (Ev.chunkDelivered fin))).upgradedWebSocket := by
      simp only [onBody, h, eq_self_iff_true, if_true]
      repeat' split
      all_goals rfl
    rw [hTr, applyUOps_slot]
    rfl
  · simp only [onBody, if_neg h]

lemma postHandler_some_slot (sId : SocketId) (st : St) :
    (postHandler sId st).2.isSome = true →
    (postHandler sId st).1.upgradedWebSocket = none := by
  unfold postHandler
  split
  · intro hc; simp at hc
  case isFalse hup =>
    have hnone : st.upgradedWebSocket = none := by
      cases hx : st.upgradedWebSocket with
      | none => rfl
      | some w => rw [hx] at hup; simp at hup
    split
    · intro hc; simp at hc
    split
    · intro hc; simp at hc
    split
    · intro hc; simp at hc
    split
    · intro _; simpa [setTimer, emit] using hnone
    · intro _; exact hnone

lemma onRequestHead_some_slot (ctx : Ctx) (sId : SocketId) (req : Req) (st : St) :
    (onRequestHead ctx sId req st).2.isSome = true →
    (onRequestHead ctx sId req st).1.upgradedWebSocket = none := by
  simp only [onRequestHead]
  split
  · intro hc; simp at hc
  · rcases hR : routeTwoPass ctx req
        (runUse sId ctx.useHandlers (markPending (headReset sId st))) with ⟨st4, ro⟩
    cases ro with
    | none => intro hc; simp at hc
    | some ops => exact postHandler_some_slot sId _

lemma stepEvent_some_slot (ctx : Ctx) (sId : SocketId) (st : St) (e : ParserEvent)
    (hs : st.upgradedWebSocket = none)
    (h : (stepEvent ctx sId st e).2.isSome = true) :
    (stepEvent ctx sId st e).1.upgradedWebSocket = none := by
  cases e with
  | head req => exact onRequestHead_some_slot ctx sId req st h
  | chunk d script fin =>
    show (onBody sId d script fin st).1.upgradedWebSocket = none
    rw [onBody_slot]
    exact hs
  | err => simp [stepEvent, onParseError] at h

lemma consume_some_slot (ctx : Ctx) (sId : SocketId) :
    ∀ (evs : List ParserEvent) (st : St), st.upgradedWebSocket = none →
    (consume ctx sId evs st).2.isSome = true →
    (consume ctx sId evs st).1.upgradedWebSocket = none := by
  intro evs
  induction evs with
  | nil => intro st hs _; exact hs
  | cons e rest ih =>
    intro st hs hsome
    rcases hS : stepEvent ctx sId st e with ⟨st', r⟩
    cases r with
    | none =>
      have hEq : consume ctx sId (e :: rest) st = (st', none) := by
        simp [consume, hS]
      rw [hEq] at hsome
      simp at hsome
    | some u =>
      have hEq : consume ctx sId (e :: rest) st = consume ctx sId rest st' := by
        simp [consume, hS]
      rw [hEq] at hsome ⊢
      have hst' : st'.upgradedWebSocket = none := by
        have h2 := stepEvent_some_slot ctx sId st e hs (by rw [hS]; rfl)
        rwa [hS] at h2
      exact ih st' hst' hsome

lemma filter_nil_of_all {p q : Ev → Bool} (h : ∀ e, q e = true → p e = false) :
    ∀ t : List Ev, t.all q = true → t.filter p = [] := by
  intro t
  induction t with
  | nil => intro _; rfl
  | cons e rest ih =>
    intro hall
    rw [List.all_cons, Bool.and_eq_true] at hall
    rw [List.filter_cons, if_neg (by simp [h e hall.1])]
    exact ih hall.2

lemma cnt_append_all {p q : Ev → Bool} (h : ∀ e, q e = true → p e = false)
    {t : List Ev} (ht : t.all q = true) (a : List Ev) :
    cnt p (a ++ t) = cnt p a := by
  simp [cnt, List.filter_append, filter_nil_of_all h t ht]

lemma quietEv_not_cork : ∀ e, quietEv e = true → isCork e = false := by
  intro e he
  cases e <;> simp_all [quietEv, isCork]

lemma quietEv_not_uncork : ∀ e, quietEv e = true → isUncork e = false := by
  intro e he
  cases e <;> simp_all [quietEv, isUncork]

lemma filter_append_all {p q : Ev → Bool} (h : ∀ e, q e = true → p e = false)
    {t : List Ev} (ht : t.all q = true) (a : List Ev) :
    (a ++ t).filter p = a.filter p := by
  simp [List.filter_append, filter_nil_of_all h t ht]

/-- C1: when the parser completes a request head while RESPONSE_PENDING is
already set, the core closes the socket and aborts parsing (returns null to
the parser), and the head is dispatched neither to use handlers nor to the
router: the whole turn's effects are the timer disarm and the close.  Hence
a second request can never reach the pending state while one is pending. -/
theorem pipelinedHeadRefused (ctx : Ctx) (sId : SocketId) (req : Req) (st : St)
    (hPending : st.responsePending = true) (hT : st.trace = []) :
    (onRequestHead ctx sId req st).2 = none ∧
    (onRequestHead ctx sId req st).1.closed = true ∧
    (onRequestHead ctx sId req st).1.trace = [Ev.timerSet sId 0, Ev.closeEv sId] := by
  have hp1 : (headReset sId st).responsePending = true := by
    simp [headReset, setTimer, emit, hPending]
  simp only [onRequestHead, if_pos hp1]
  simp [closeSock, emit, headReset, setTimer, hT]

/-- Witness for C1: a concrete refused pipelined head. -/
theorem pipelinedHeadRefused_witness :
    stPend.responsePending = true ∧ stPend.trace = [] ∧
    ((onRequestHead ctx0 1 ⟨"GET", "/x"⟩ stPend).2 = none ∧
     (onRequestHead ctx0 1 ⟨"GET", "/x"⟩ stPend).1.closed = true ∧
     (onRequestHead ctx0 1 ⟨"GET", "/x"⟩ stPend).1.trace
       = [Ev.timerSet 1 0, Ev.closeEv 1]) :=
  ⟨rfl, rfl, pipelinedHeadRefused ctx0 1 ⟨"GET", "/x"⟩ stPend rfl rfl⟩

/-- C2: a route handler that returns with the socket neither upgraded, closed
nor shut down, without having responded and without an on_aborted callback
registered, makes the core abort the process (std::terminate), and parsing
does not continue. -/
theorem unansweredHandlerAborts (sId : SocketId) (st : St)
    (h1 : st.upgradedWebSocket = none) (h2 : st.closed = false)
    (h3 : st.shutDown = false) (h4 : st.hasResponded = false)
    (h5 : st.onAborted = false) :
    (postHandler sId st).1.terminated = true ∧ (postHandler sId st).2 = none := by
  simp [postHandler, h1, h2, h3, h4, h5, emit]

/-- Witness for C2 at the baseline state. -/
theorem unansweredHandlerAborts_witness :
    st0.upgradedWebSocket = none ∧ st0.closed = false ∧ st0.shutDown = false ∧
    st0.hasResponded = false ∧ st0.onAborted = false ∧
    ((postHandler 1 st0).1.terminated = true ∧ (postHandler 1 st0).2 = none) :=
  ⟨rfl, rfl, rfl, rfl, rfl, unansweredHandlerAborts 1 st0 rfl rfl rfl rfl rfl⟩

/-- C4 counterexample: with an on_writable callback registered that returns
true, the handler performs no zero-byte drain write and leaves the timer
disarmed instead of re-arming it — refuting the claim that a true return
leads to a drain and a timer re-arm. -/
theorem writableTrueNoDrain :
    stWr.onWritable = true ∧
    (onWritableHandler 1 true stWr).1.trace = [Ev.timerSet 1 0, Ev.writableCb 3] ∧
    ¬ (Ev.drainWrite 1 ∈ (onWritableHandler 1 true stWr).1.trace) ∧
    (onWritableHandler 1 true stWr).1.timer ≠ HTTP_IDLE_TIMEOUT_S := by
  refine ⟨rfl, rfl, ?_, ?_⟩ <;> decide

/-- C4 as amended: on a writable event, if an on_writable callback is
registered the core disarms the timer and invokes the callback with the
current write offset, and — whatever the callback returns — neither drains
nor touches the timer further this turn; only when no callback is registered
does it attempt the zero-byte drain write and re-arm the idle timer. -/
theorem writableBehavior (sId : SocketId) (cb : Bool) (st : St)
    (hT : st.trace = []) :
    (st.onWritable = true →
      (onWritableHandler sId cb st).1.trace
        = [Ev.timerSet sId 0, Ev.writableCb st.offset] ∧
      (onWritableHandler sId cb st).1.timer = 0) ∧
    (st.onWritable = false →
      (onWritableHandler sId cb st).1.trace
        = [Ev.drainWrite sId, Ev.timerSet sId HTTP_IDLE_TIMEOUT_S] ∧
      (onWritableHandler sId cb st).1.timer = HTTP_IDLE_TIMEOUT_S) := by
  constructor
  · intro h
    cases cb <;> simp [onWritableHandler, h, setTimer, emit, hT]
  · intro h
    simp [onWritableHandler, h, setTimer, emit, hT]

/-- Witness for C4's amended theorem: concrete registered-callback case. -/
theorem writableBehavior_witness :
    stWr.trace = [] ∧ stWr.onWritable = true ∧
    ((onWritableHandler 1 true stWr).1.trace
       = [Ev.timerSet 1 0, Ev.writableCb stWr.offset] ∧
     (onWritableHandler 1 true stWr).1.timer = 0) :=
  ⟨rfl, rfl, (writableBehavior 1 true stWr rfl).1 rfl⟩

lemma cnt_append (p : Ev → Bool) (a b : List Ev) :
    cnt p (a ++ b) = cnt p a + cnt p b := by
  simp [cnt, List.filter_append]

lemma postHandler_routeFilter (sId : SocketId) (st : St) :
    (postHandler sId st).1.trace.filter isRouteEv = st.trace.filter isRouteEv := by
  unfold postHandler
  repeat' split
  all_goals simp [setTimer, emit, List.filter_append, isRouteEv]

/-- C8: routing is a two-pass match — (method, url) first, then ("*", url);
when both passes fail the socket is closed, parsing is aborted and no
handler runs; when a pass matches, the handler runs after exactly the
attempted passes. -/
theorem routerTwoPassDispatch (ctx : Ctx) (sId : SocketId) (req : Req) (st : St)
    (hP : st.responsePending = false) (hT : st.trace = []) :
    (ctx.router req.method req.url = none → ctx.router "*" req.url = none →
      (onRequestHead ctx sId req st).2 = none ∧
      (onRequestHead ctx sId req st).1.closed = true ∧
      (onRequestHead ctx sId req st).1.trace.filter isRouteEv
        = [Ev.routeAttempt req.method, Ev.routeAttempt "*"]) ∧
    (∀ ops, ctx.router req.method req.url = some ops →
      (onRequestHead ctx sId req st).1.trace.filter isRouteEv
        = [Ev.routeAttempt req.method, Ev.handlerRun]) ∧
    (∀ ops, ctx.router req.method req.url = none →
      ctx.router "*" req.url = some ops →
      (onRequestHead ctx sId req st).1.trace.filter isRouteEv
        = [Ev.routeAttempt req.method, Ev.routeAttempt "*", Ev.handlerRun]) := by
  have hp1 : ¬ ((headReset sId st).responsePending = true) := by
    simp [headReset, setTimer, emit, hP]
  have h3 : (runUse sId ctx.useHandlers (markPending (headReset sId st))).trace.filter
      isRouteEv = [] := by
    obtain ⟨t, ht, ha⟩ :=
      runUse_delta sId ctx.useHandlers (markPending (headReset sId st))
    rw [ht, filter_append_all useChainEv_not_route ha]
    simp [markPending, headReset, setTimer, emit, hT, isRouteEv]
  refine ⟨?_, ?_, ?_⟩
  · intro hr1 hr2
    have hRT : routeTwoPass ctx req
        (runUse sId ctx.useHandlers (markPending (headReset sId st)))
        = (emit (emit (runUse sId ctx.useHandlers (markPending (headReset sId st)))
            (Ev.routeAttempt req.method)) (Ev.routeAttempt "*"), none) := by
      simp [routeTwoPass, hr1, hr2]
    have hORH : onRequestHead ctx sId req st
        = (closeSock (emit (emit (runUse sId ctx.useHandlers
            (markPending (headReset sId st)))
            (Ev.routeAttempt req.method)) (Ev.routeAttempt "*")) sId, none) := by
      simp only [onRequestHead, if_neg hp1, hRT]
    rw [hORH]
    refine ⟨rfl, rfl, ?_⟩
    simp [closeSock, emit, List.filter_append, isRouteEv, h3]
  · intro ops hr1
    have hRT : routeTwoPass ctx req
        (runUse sId ctx.useHandlers (markPending (headReset sId st)))
        = (emit (runUse sId ctx.useHandlers (markPending (headReset sId st)))
            (Ev.routeAttempt req.method), some ops) := by
      simp [routeTwoPass, hr1]
    have hORH : onRequestHead ctx sId req st
        = postHandler sId (applyHOps sId ops
            (emit (emit (runUse sId ctx.useHandlers (markPending (headReset sId st)))
              (Ev.routeAttempt req.method)) Ev.handlerRun)) := by
      simp only [onRequestHead, if_neg hp1, hRT]
    rw [hORH, postHandler_routeFilter]
    obtain ⟨t, ht, ha⟩ := applyHOps_delta sId ops
      (emit (emit (runUse sId ctx.useHandlers (markPending (headReset sId st)))
        (Ev.routeAttempt req.method)) Ev.handlerRun)
    rw [ht, filter_append_all scriptEv_not_route ha]
    simp [emit, List.filter_append, isRouteEv, h3]
  · intro ops hr1 hr2
    have hRT : routeTwoPass ctx req
        (runUse sId ctx.useHandlers (markPending (headReset sId st)))
        = (emit (emit (runUse sId ctx.useHandlers (markPending (headReset sId st)))
            (Ev.routeAttempt req.method)) (Ev.routeAttempt "*"), some ops) := by
      simp [routeTwoPass, hr1, hr2]
    have hORH : onRequestHead ctx sId req st
        = postHandler sId (applyHOps sId ops
            (emit (emit (emit (runUse sId ctx.useHandlers
              (markPending (headReset sId st)))
              (Ev.routeAttempt req.method)) (Ev.routeAttempt "*")) Ev.handlerRun)) := by
      simp only [onRequestHead, if_neg hp1, hRT]
    rw [hORH, postHandler_routeFilter]
    obtain ⟨t, ht, ha⟩ := applyHOps_delta sId ops
      (emit (emit (emit (runUse sId ctx.useHandlers (markPending (headReset sId st)))
        (Ev.routeAttempt req.method)) (Ev.routeAttempt "*")) Ev.handlerRun)
    rw [ht, filter_append_all scriptEv_not_route ha]
    simp [emit, List.filter_append, isRouteEv, h3]

/-- Witness for C8: with an empty route table both passes fail, the socket
closes and only the two route attempts appear among routing events. -/
theorem routerTwoPassDispatch_witness :
    st0.responsePending = false ∧ st0.trace = [] ∧
    ctx0.router "GET" "/x" = none ∧ ctx0.router "*" "/x" = none ∧
    ((onRequestHead ctx0 1 ⟨"GET", "/x"⟩ st0).2 = none ∧
     (onRequestHead ctx0 1 ⟨"GET", "/x"⟩ st0).1.closed = true ∧
     (onRequestHead ctx0 1 ⟨"GET", "/x"⟩ st0).1.trace.filter isRouteEv
       = [Ev.routeAttempt "GET", Ev.routeAttempt "*"]) :=
  ⟨rfl, rfl, rfl, rfl,
    (routerTwoPassDispatch ctx0 1 ⟨"GET", "/x"⟩ st0 rfl rfl).1 rfl rfl⟩

/-- C10: the on_data handler never hands a null socket pointer back to the
event loop: in shutdown it returns the original socket with the state
untouched; when the parser returned its continuation socket it returns that
socket; when parsing aborted and the upgrade slot is set it returns the new
socket; when parsing aborted without an upgrade it returns the original
(now closed) socket. -/
theorem onDataNeverNull (ctx : Ctx) (sId : SocketId) (evs : List ParserEvent)
    (uf : Bool) (st : St) :
    (onDataHandler ctx sId evs uf st).2 ≠ none ∧
    (st.shutDown = true → onDataHandler ctx sId evs uf st = (st, some sId)) ∧
    (∀ st1 r, st.shutDown = false →
      consume ctx sId evs (corkSock st sId) = (st1, some r) →
      (onDataHandler ctx sId evs uf st).2 = some r) ∧
    (∀ st1 w, st.shutDown = false →
      consume ctx sId evs (corkSock st sId) = (st1, none) →
      st1.upgradedWebSocket = some w →
      (onDataHandler ctx sId evs uf st).2 = some w) ∧
    (∀ st1, st.shutDown = false →
      consume ctx sId evs (corkSock st sId) = (st1, none) →
      st1.upgradedWebSocket = none →
      (onDataHandler ctx sId evs uf st).2 = some sId) := by
  by_cases hs : st.shutDown = true
  · have hOD : onDataHandler ctx sId evs uf st = (st, some sId) := by
      simp [onDataHandler, hs]
    refine ⟨by rw [hOD]; simp, fun _ => hOD, ?_, ?_, ?_⟩
    · intro st1 r hsd _; rw [hsd] at hs; simp at hs
    · intro st1 w hsd _ _; rw [hsd] at hs; simp at hs
    · intro st1 hsd _ _; rw [hsd] at hs; simp at hs
  · rcases hc : consume ctx sId evs (corkSock st sId) with ⟨st1, r⟩
    cases r with
    | some rr =>
      have hOD : (onDataHandler ctx sId evs uf st).2 = some rr := by
        simp only [onDataHandler, if_neg hs, hc]
      refine ⟨by rw [hOD]; simp, fun h => absurd h hs, ?_, ?_, ?_⟩
      · intro st1' r' _ hc'
        simp only [Prod.mk.injEq, Option.some.injEq] at hc'
        obtain ⟨rfl, rfl⟩ := hc'
        exact hOD
      · intro st1' w _ hc'
        simp at hc'
      · intro st1' _ hc'
        simp at hc'
    | none =>
      cases hw : st1.upgradedWebSocket with
      | some w =>
        have hOD : (onDataHandler ctx sId evs uf st).2 = some w := by
          simp only [onDataHandler, if_neg hs, hc, hw]
        refine ⟨by rw [hOD]; simp, fun h => absurd h hs, ?_, ?_, ?_⟩
        · intro st1' r' _ hc'
          simp at hc'
        · intro st1' w' _ hc' hw'
          simp only [Prod.mk.injEq, and_true] at hc'
          obtain rfl := hc'
          rw [hw] at hw'
          simp only [Option.some.injEq] at hw'
          rw [hOD, hw']
        · intro st1' _ hc' hw'
          simp only [Prod.mk.injEq, and_true] at hc'
          obtain rfl := hc'
          rw [hw] at hw'
          simp at hw'
      | none =>
        have hOD : (onDataHandler ctx sId evs uf st).2 = some sId := by
          simp only [onDataHandler, if_neg hs, hc, hw]
        refine ⟨by rw [hOD]; simp, fun h => absurd h hs, ?_, ?_, ?_⟩
        · intro st1' r' _ hc'
          simp at hc'
        · intro st1' w' _ hc' hw'
          simp only [Prod.mk.injEq, and_true] at hc'
          obtain rfl := hc'
          rw [hw] at hw'
          simp at hw'
        · intro st1' _ _ _
          exact hOD

/-- Witness for C10: empty input on a live socket returns the continuation
socket. -/
theorem onDataNeverNull_witness :
    st0.shutDown = false ∧
    consume ctx0 1 [] (corkSock st0 1) = (corkSock st0 1, some 1) ∧
    (onDataHandler ctx0 1 [] false st0).2 = some 1 :=
  ⟨rfl, rfl,
    (onDataNeverNull ctx0 1 [] false st0).2.2.1 (corkSock st0 1) 1 rfl rfl⟩

/-- C3 counterexample: a turn consisting of a single parse error closes the
socket during parsing and does not end in an upgrade, yet it corks once and
never uncorks — refuting the claim that corks equal uncorks in every
non-upgrade turn including ones closed during parsing. -/
theorem corkCloseImbalance :
    (onDataHandler ctx0 1 [ParserEvent.err] false st0).1.closed = true ∧
    (onDataHandler ctx0 1 [ParserEvent.err] false st0).1.upgradedWebSocket = none ∧
    cnt isCork (onDataHandler ctx0 1 [ParserEvent.err] false st0).1.trace = 1 ∧
    cnt isUncork (onDataHandler ctx0 1 [ParserEvent.err] false st0).1.trace = 0 :=
  ⟨rfl, rfl, rfl, rfl⟩

/-- C3 as amended: in every on_data turn in which the parser returned its
continuation socket, exactly one cork and one uncork happen (and a turn
rejected in shutdown performs neither); in a turn in which parsing was
aborted without an upgrade (socket closed during parsing) the socket is
corked once and never uncorked. -/
theorem corkBalance (ctx : Ctx) (sId : SocketId) (evs : List ParserEvent)
    (uf : Bool) (st : St) (hT : st.trace = []) :
    (st.shutDown = true →
      cnt isCork (onDataHandler ctx sId evs uf st).1.trace
        = cnt isUncork (onDataHandler ctx sId evs uf st).1.trace) ∧
    (∀ st1 r, st.shutDown = false →
      consume ctx sId evs (corkSock st sId) = (st1, some r) →
      cnt isCork (onDataHandler ctx sId evs uf st).1.trace = 1 ∧
      cnt isUncork (onDataHandler ctx sId evs uf st).1.trace = 1) ∧
    (∀ st1, st.shutDown = false →
      consume ctx sId evs (corkSock st sId) = (st1, none) →
      st1.upgradedWebSocket = none →
      cnt isCork (onDataHandler ctx sId evs uf st).1.trace = 1 ∧
      cnt isUncork (onDataHandler ctx sId evs uf st).1.trace = 0) := by
  refine ⟨?_, ?_, ?_⟩
  · intro h
    simp [onDataHandler, h, hT, cnt]
  · intro st1 r hs hc
    have hs' : ¬ (st.shutDown = true) := by simp [hs]
    obtain ⟨t, ht, ha⟩ := consume_delta ctx sId evs (corkSock st sId)
    rw [hc] at ht
    have ht' : st1.trace = (corkSock st sId).trace ++ t := ht
    have hck : cnt isCork st1.trace = 1 := by
      rw [ht', cnt_append_all quietEv_not_cork ha]
      simp [corkSock, emit, hT, cnt, isCork]
    have hun : cnt isUncork st1.trace = 0 := by
      rw [ht', cnt_append_all quietEv_not_uncork ha]
      simp [corkSock, emit, hT, cnt, isUncork]
    have e1 : cnt isCork [Ev.uncork r] = 0 := rfl
    have e2 : cnt isUncork [Ev.uncork r] = 1 := rfl
    have e3 : cnt isCork [Ev.timerSet sId HTTP_IDLE_TIMEOUT_S] = 0 := rfl
    have e4 : cnt isUncork [Ev.timerSet sId HTTP_IDLE_TIMEOUT_S] = 0 := rfl
    have hTr : (onDataHandler ctx sId evs uf st).1.trace
        = if uf then st1.trace ++ [Ev.uncork r] ++ [Ev.timerSet sId HTTP_IDLE_TIMEOUT_S]
          else st1.trace ++ [Ev.uncork r] := by
      simp only [onDataHandler, if_neg hs', hc]
      cases uf <;> simp [uncorkSock, setTimer, emit]
    cases uf <;>
      simp only [hTr, if_true, if_false, Bool.false_eq_true, ite_true, ite_false,
        cnt_append, hck, hun, e1, e2, e3, e4] <;> simp
  · intro st1 hs hc hw
    have hs' : ¬ (st.shutDown = true) := by simp [hs]
    obtain ⟨t, ht, ha⟩ := consume_delta ctx sId evs (corkSock st sId)
    rw [hc] at ht
    have ht' : st1.trace = (corkSock st sId).trace ++ t := ht
    have hck : cnt isCork st1.trace = 1 := by
      rw [ht', cnt_append_all quietEv_not_cork ha]
      simp [corkSock, emit, hT, cnt, isCork]
    have hun : cnt isUncork st1.trace = 0 := by
      rw [ht', cnt_append_all quietEv_not_uncork ha]
      simp [corkSock, emit, hT, cnt, isUncork]
    have hTr : (onDataHandler ctx sId evs uf st).1.trace = st1.trace := by
      simp only [onDataHandler, if_neg hs', hc, hw]
    rw [hTr]
    exact ⟨hck, hun⟩

/-- Witness for C3's amended theorem: an empty turn corks and uncorks once. -/
theorem corkBalance_witness :
    st0.trace = [] ∧ st0.shutDown = false ∧
    consume ctx0 1 [] (corkSock st0 1) = (corkSock st0 1, some 1) ∧
    (cnt isCork (onDataHandler ctx0 1 [] false st0).1.trace = 1 ∧
     cnt isUncork (onDataHandler ctx0 1 [] false st0).1.trace = 1) :=
  ⟨rfl, rfl, rfl,
    (corkBalance ctx0 1 [] false st0 rfl).2.1 (corkSock st0 1) 1 rfl rfl⟩

/-- C9: the upgraded_websocket slot never survives an on_data turn: the
final state's slot is always null, and whenever the parser phase left the
slot set, the pipeline uncorks the new socket, clears the slot, and returns
the new socket pointer to the event loop. -/
theorem upgradeSlotConsumed (ctx : Ctx) (sId : SocketId) (evs : List ParserEvent)
    (uf : Bool) (st : St) (hSlot : st.upgradedWebSocket = none) :
    (onDataHandler ctx sId evs uf st).1.upgradedWebSocket = none ∧
    (∀ st1 p w, st.shutDown = false →
      consume ctx sId evs (corkSock st sId) = (st1, p) →
      st1.upgradedWebSocket = some w →
      (onDataHandler ctx sId evs uf st).2 = some w ∧
      Ev.uncork w ∈ (onDataHandler ctx sId evs uf st).1.trace ∧
      (onDataHandler ctx sId evs uf st).1.upgradedWebSocket = none) := by
  have hCorkSlot : (corkSock st sId).upgradedWebSocket = none := hSlot
  constructor
  · by_cases hs : st.shutDown = true
    · simpa [onDataHandler, hs] using hSlot
    · rcases hc : consume ctx sId evs (corkSock st sId) with ⟨st1, r⟩
      cases r with
      | some rr =>
        have hslot1 : st1.upgradedWebSocket = none := by
          have h2 := consume_some_slot ctx sId evs (corkSock st sId) hCorkSlot
            (by rw [hc]; rfl)
          rwa [hc] at h2
        simp only [onDataHandler, if_neg hs, hc]
        cases uf <;> simpa [uncorkSock, setTimer, emit] using hslot1
      | none =>
        cases hw : st1.upgradedWebSocket with
        | some w => simp [onDataHandler, if_neg hs, hc, hw, uncorkSock, emit]
        | none => simpa [onDataHandler, if_neg hs, hc, hw] using hw
  · intro st1 p w hs hc hw
    have hs' : ¬ (st.shutDown = true) := by simp [hs]
    cases p with
    | some pp =>
      have h2 := consume_some_slot ctx sId evs (corkSock st sId) hCorkSlot
        (by rw [hc]; rfl)
      rw [hc] at h2
      have : some w = (none : Option SocketId) := hw ▸ h2
      simp at this
    | none =>
      have hOD : onDataHandler ctx sId evs uf st
          = ({uncorkSock st1 w with upgradedWebSocket := none}, some w) := by
        simp only [onDataHandler, if_neg hs', hc, hw]
      rw [hOD]
      refine ⟨rfl, ?_, rfl⟩
      simp [uncorkSock, emit]

/-- Witness for C9: a handler that upgrades; the pipeline returns the new
socket, uncorks it and clears the slot. -/
theorem upgradeSlotConsumed_witness :
    st0.upgradedWebSocket = none ∧ st0.shutDown = false ∧
    (∃ st1, consume ctxUp 1 [ParserEvent.head ⟨"GET", "/ws"⟩] (corkSock st0 1)
        = (st1, none) ∧ st1.upgradedWebSocket = some 2) ∧
    ((onDataHandler ctxUp 1 [ParserEvent.head ⟨"GET", "/ws"⟩] false st0).2 = some 2 ∧
     Ev.uncork 2 ∈ (onDataHandler ctxUp 1 [ParserEvent.head ⟨"GET", "/ws"⟩] false st0).1.trace ∧
     (onDataHandler ctxUp 1 [ParserEvent.head ⟨"GET", "/ws"⟩] false st0).1.upgradedWebSocket = none) := by
  refine ⟨rfl, rfl, ⟨?_, ?_, ?_⟩, ?_⟩
  case _ => exact (consume ctxUp 1 [ParserEvent.head ⟨"GET", "/ws"⟩] (corkSock st0 1)).1
  case _ => rfl
  case _ => rfl
  exact (upgradeSlotConsumed ctxUp 1 [ParserEvent.head ⟨"GET", "/ws"⟩] false st0 rfl).2
    (consume ctxUp 1 [ParserEvent.head ⟨"GET", "/ws"⟩] (corkSock st0 1)).1 none 2 rfl rfl rfl

/-- C5: delivering a request head disarms the idle timer and clears
write_offset — the head callback's first effect is the timer disarm (the
first event of its turn trace), with the offset zeroed by the same reset —
and after the matched handler returns without upgrade, close or shutdown
(and without the programmer-error abort: it responded or registered
on_aborted), the core re-arms the idle timer to HTTP_IDLE_TIMEOUT_S if and
only if the handler has not responded and has registered in_stream;
otherwise it leaves the state untouched. -/
theorem headTimerDiscipline (ctx : Ctx) (sId : SocketId) (req : Req) (st : St)
    (hT : st.trace = []) :
    ((headReset sId st).timer = 0 ∧ (headReset sId st).offset = 0) ∧
    (∃ t, (onRequestHead ctx sId req st).1.trace = Ev.timerSet sId 0 :: t) ∧
    (∀ st5 : St, st5.trace = [] → st5.upgradedWebSocket = none →
      st5.closed = false → st5.shutDown = false →
      (st5.hasResponded = true ∨ st5.onAborted = true) →
      ((st5.hasResponded = false ∧ st5.inStream = true →
         (postHandler sId st5).1.timer = HTTP_IDLE_TIMEOUT_S ∧
         (postHandler sId st5).1.trace = [Ev.timerSet sId HTTP_IDLE_TIMEOUT_S]) ∧
       (¬ (st5.hasResponded = false ∧ st5.inStream = true) →
         (postHandler sId st5).1 = st5))) := by
  refine ⟨by simp [headReset, setTimer, emit], ?_, ?_⟩
  · obtain ⟨t, ht, _⟩ := onRequestHead_shape ctx sId req st
    exact ⟨t, by rw [ht, hT]; rfl⟩
  · intro st5 h0 h1 h2 h3 h4
    constructor
    · rintro ⟨hr, hi⟩
      have ha : st5.onAborted = true := by
        rcases h4 with h4 | h4
        · rw [h4] at hr; cases hr
        · exact h4
      simp [postHandler, h1, h2, h3, hr, hi, ha, setTimer, emit, h0]
    · intro hn
      by_cases hr : st5.hasResponded = true
      · simp [postHandler, h1, h2, h3, hr]
      · have hr' : st5.hasResponded = false := by
          cases hx : st5.hasResponded
          · rfl
          · exact absurd hx hr
        have ha : st5.onAborted = true := by
          rcases h4 with h4 | h4
          · exact absurd h4 hr
          · exact h4
        have hi' : st5.inStream = false := by
          cases hx : st5.inStream
          · rfl
          · exact absurd ⟨hr', hx⟩ hn
        simp [postHandler, h1, h2, h3, hr', ha, hi']

/-- Witness for C5: head reset zeroes timer and offset; the post-handler
step re-arms the timer for an unresponded request with in_stream. -/
theorem headTimerDiscipline_witness :
    st0.trace = [] ∧
    ((headReset 1 st0).timer = 0 ∧ (headReset 1 st0).offset = 0) ∧
    stStream.trace = [] ∧ stStream.upgradedWebSocket = none ∧
    stStream.closed = false ∧ stStream.shutDown = false ∧
    stStream.onAborted = true ∧
    ((postHandler 1 stStream).1.timer = HTTP_IDLE_TIMEOUT_S ∧
     (postHandler 1 stStream).1.trace = [Ev.timerSet 1 HTTP_IDLE_TIMEOUT_S]) :=
  ⟨rfl, (headTimerDiscipline ctx0 1 ⟨"GET", "/x"⟩ st0 rfl).1,
   rfl, rfl, rfl, rfl, rfl,
   ((headTimerDiscipline ctx0 1 ⟨"GET", "/x"⟩ st0 rfl).2.2 stStream rfl rfl rfl rfl
     (Or.inr rfl)).1 ⟨rfl, rfl⟩⟩

/-- C6: body-chunk delivery — with no in_stream registered the chunk is
dropped with no effect on the state and parsing continues; with in_stream
registered the timer is adjusted first (disarmed on the final chunk,
re-armed to the idle timeout otherwise) and the chunk delivered second; a
socket left closed or shut down by the delivery stops further parsing; on a
final chunk with the socket surviving, in_stream is cleared so later
requests cannot trigger it, and on a non-final chunk the state is exactly
the delivered state. -/
theorem bodyChunkDelivery (sId : SocketId) (chunk : String) (script : List UOp)
    (fin : Bool) (st : St) (hT : st.trace = []) :
    (st.inStream = false → onBody sId chunk script fin st = (st, some sId)) ∧
    (st.inStream = true →
      (∃ t, (onBody sId chunk script fin st).1.trace
          = Ev.timerSet sId (if fin then 0 else HTTP_IDLE_TIMEOUT_S)
            :: Ev.chunkDelivered fin :: t) ∧
      (∀ st2 : St,
        st2 = applyUOps sId script
          (emit (setTimer st sId (if fin then 0 else HTTP_IDLE_TIMEOUT_S))
            (Ev.chunkDelivered fin)) →
        ((st2.closed = true ∨ st2.shutDown = true) →
          (onBody sId chunk script fin st).2 = none) ∧
        (st2.closed = false → st2.shutDown = false → fin = true →
          (onBody sId chunk script fin st).1.inStream = false ∧
          (onBody sId chunk script fin st).2 = some sId) ∧
        (st2.closed = false → st2.shutDown = false → fin = false →
          (onBody sId chunk script fin st).1 = st2 ∧
          (onBody sId chunk script fin st).2 = some sId))) := by
  constructor
  · intro h
    simp [onBody, h]
  · intro h
    constructor
    · have hTr : (onBody sId chunk script fin st).1.trace
          = (applyUOps sId script
              (emit (setTimer st sId (if fin then 0 else HTTP_IDLE_TIMEOUT_S))
                (Ev.chunkDelivered fin))).trace := by
        simp only [onBody, h, eq_self_iff_true, if_true]
        repeat' split
        all_goals rfl
      obtain ⟨ts, hts, _⟩ := applyUOps_delta sId script
        (emit (setTimer st sId (if fin then 0 else HTTP_IDLE_TIMEOUT_S))
          (Ev.chunkDelivered fin))
      refine ⟨ts, ?_⟩
      rw [hTr, hts]
      simp [emit, setTimer, hT]
    · intro st2 hEq
      have hOB : onBody sId chunk script fin st
          = (if st2.closed = true then (st2, none)
             else if st2.shutDown = true then (st2, none)
             else if fin then ({st2 with inStream := false}, some sId)
             else (st2, some sId)) := by
        rw [hEq]
        simp only [onBody, h, eq_self_iff_true, if_true]
      refine ⟨?_, ?_, ?_⟩
      · intro hcs
        rcases hcs with hcl | hsh
        · rw [hOB, if_pos hcl]
        · by_cases hcl : st2.closed = true
          · rw [hOB, if_pos hcl]
          · rw [hOB, if_neg hcl, if_pos hsh]
      · intro hcl hsh hf
        rw [hOB]
        simp [hcl, hsh, hf]
      · intro hcl hsh hf
        rw [hOB]
        simp [hcl, hsh, hf]

/-- Witness for C6: a final empty-script chunk clears in_stream and
continues parsing. -/
theorem bodyChunkDelivery_witness :
    stIn.trace = [] ∧ stIn.inStream = true ∧
    ((onBody 1 "d" [] true stIn).1.inStream = false ∧
     (onBody 1 "d" [] true stIn).2 = some 1) :=
  ⟨rfl, rfl,
    (((bodyChunkDelivery 1 "d" [] true stIn rfl).2 rfl).2
      (applyUOps 1 []
        (emit (setTimer stIn 1 (if true then 0 else HTTP_IDLE_TIMEOUT_S))
          (Ev.chunkDelivered true))) rfl).2.1 rfl rfl rfl⟩

/-- After any handler script that does not register on_aborted past response
completion, a completed response implies no on_aborted callback is left
registered (completion clears it). -/
lemma respondClearsAborted (sId : SocketId) :
    ∀ (ops : List HOp) (st : St), regAbortedAfterRespond ops = false →
    (st.hasResponded = true → st.onAborted = false ∧ ops.any isRegAborted = false) →
    (applyHOps sId ops st).hasResponded = true →
    (applyHOps sId ops st).onAborted = false := by
  intro ops
  induction ops with
  | nil =>
    intro st _ hinv hr
    exact (hinv hr).1
  | cons op rest ih =>
    intro st hno hinv
    have hcons : applyHOps sId (op :: rest) st
        = applyHOps sId rest (applyHOp sId st op) := rfl
    rw [hcons]
    have hsplit : (isRespondOp op && rest.any isRegAborted) = false
        ∧ regAbortedAfterRespond rest = false := by
      have h2 : ((isRespondOp op && rest.any isRegAborted)
          || regAbortedAfterRespond rest) = false := hno
      simpa [Bool.or_eq_false_iff] using h2
    apply ih (applyHOp sId st op) hsplit.2
    cases op with
    | upgrade w =>
      intro hr
      obtain ⟨ha, hany⟩ := hinv hr
      refine ⟨ha, ?_⟩
      have h3 : (isRegAborted (HOp.upgrade w) || rest.any isRegAborted) = false := by
        simpa [List.any_cons] using hany
      simpa [isRegAborted] using h3
    | base u =>
      cases u with
      | respond =>
        intro _
        refine ⟨rfl, ?_⟩
        have h3 := hsplit.1
        simpa [isRespondOp] using h3
      | regAborted =>
        intro hr
        obtain ⟨ha, hany⟩ := hinv hr
        have h3 : (isRegAborted (HOp.base UOp.regAborted) || rest.any isRegAborted)
            = false := by
          simpa [List.any_cons] using hany
        simp [isRegAborted] at h3
      | regInStream =>
        intro hr
        obtain ⟨ha, hany⟩ := hinv hr
        refine ⟨ha, ?_⟩
        have h3 : (isRegAborted (HOp.base UOp.regInStream) || rest.any isRegAborted)
            = false := by
          simpa [List.any_cons] using hany
        simpa [isRegAborted] using h3
      | regOnWritable =>
        intro hr
        obtain ⟨ha, hany⟩ := hinv hr
        refine ⟨ha, ?_⟩
        have h3 : (isRegAborted (HOp.base UOp.regOnWritable) || rest.any isRegAborted)
            = false := by
          simpa [List.any_cons] using hany
        simpa [isRegAborted] using h3
      | closeSocket =>
        intro hr
        obtain ⟨ha, hany⟩ := hinv hr
        refine ⟨ha, ?_⟩
        have h3 : (isRegAborted (HOp.base UOp.closeSocket) || rest.any isRegAborted)
            = false := by
          simpa [List.any_cons] using hany
        simpa [isRegAborted] using h3
      | shutdownSocket =>
        intro hr
        obtain ⟨ha, hany⟩ := hinv hr
        refine ⟨ha, ?_⟩
        have h3 : (isRegAborted (HOp.base UOp.shutdownSocket) || rest.any isRegAborted)
            = false := by
          simpa [List.any_cons] using hany
        simpa [isRegAborted] using h3

lemma cnt_replicate_filterRun (n : Nat) :
    cnt isAbortedEv (List.replicate n Ev.filterRun) = 0 := by
  induction n with
  | zero => rfl
  | succ k ih => simpa [cnt, List.replicate, List.filter_cons, isAbortedEv] using ih

/-- C7: for a request whose RESPONSE_PENDING was raised (fresh head, no
stale on_aborted), with user actions that do not register on_aborted after
completing the response: has_responded and a registered on_aborted never
both hold at close, the on_close handler fires on_aborted exactly once iff
it is registered at close (peer close before completion), and never fires
it after a successful response. -/
theorem abortedOnceDiscipline (ctx : Ctx) (sId : SocketId) (st : St)
    (ops : List HOp) (hA : st.onAborted = false) (hT : st.trace = [])
    (hOps : regAbortedAfterRespond ops = false) :
    ¬ ((applyHOps sId ops (markPending st)).hasResponded = true ∧
       (applyHOps sId ops (markPending st)).onAborted = true) ∧
    cnt isAbortedEv (onCloseHandler ctx (applyHOps sId ops (markPending st))).trace
      = (if (applyHOps sId ops (markPending st)).onAborted = true then 1 else 0) ∧
    ((applyHOps sId ops (markPending st)).hasResponded = true →
      cnt isAbortedEv
        (onCloseHandler ctx (applyHOps sId ops (markPending st))).trace = 0) := by
  have hInv : (markPending st).hasResponded = true →
      (markPending st).onAborted = false ∧ ops.any isRegAborted = false := by
    intro hr
    simp [markPending] at hr
  have hKey := respondClearsAborted sId ops (markPending st) hOps hInv
  have hTrace0 : cnt isAbortedEv (applyHOps sId ops (markPending st)).trace = 0 := by
    obtain ⟨t, ht, ha⟩ := applyHOps_delta sId ops (markPending st)
    rw [ht, cnt_append_all scriptEv_not_aborted ha]
    simp [markPending, hT, cnt]
  have hClose : ∀ stc : St, cnt isAbortedEv stc.trace = 0 →
      cnt isAbortedEv (onCloseHandler ctx stc).trace
        = (if stc.onAborted = true then 1 else 0) := by
    intro stc h0
    by_cases hab : stc.onAborted = true
    · have hstep : onCloseHandler ctx stc
          = emit {stc with trace := stc.trace ++ List.replicate ctx.filters Ev.filterRun}
              Ev.abortedCalled := by
        simp [onCloseHandler, hab]
      rw [hstep]
      simp only [emit]
      rw [List.append_assoc]
      rw [cnt_append, cnt_append, h0, cnt_replicate_filterRun, if_pos hab]
      rfl
    · have hstep : onCloseHandler ctx stc
          = {stc with trace := stc.trace ++ List.replicate ctx.filters Ev.filterRun} := by
        simp [onCloseHandler, hab]
      rw [hstep, if_neg hab]
      simp only []
      rw [cnt_append, h0, cnt_replicate_filterRun]
  refine ⟨?_, hClose _ hTrace0, ?_⟩
  · rintro ⟨h1, h2⟩
    rw [hKey h1] at h2
    simp at h2
  · intro h1
    rw [hClose _ hTrace0, hKey h1]
    simp

/-- Witness for C7: a handler that registers on_aborted and never responds;
at close the callback fires exactly once. -/
theorem abortedOnceDiscipline_witness :
    st0.onAborted = false ∧ st0.trace = [] ∧
    regAbortedAfterRespond [HOp.base UOp.regAborted] = false ∧
    cnt isAbortedEv (onCloseHandler ctx0
      (applyHOps 1 [HOp.base UOp.regAborted] (markPending st0))).trace = 1 :=
  ⟨rfl, rfl, rfl,
    (abortedOnceDiscipline ctx0 1 st0 [HOp.base UOp.regAborted] rfl rfl rfl).2.1⟩
